import Mathlib

/-!
Verification development for the semantic-analysis core in `src/program.ts`
(AssemblyScript compiler front-end). Each data type and function below is a
shallow embedding of the corresponding declaration in the source file;
comments reference the source symbol it was translated from.

Conventions used throughout:
* TypeScript `Map<string, V>` becomes an association list `List (String × V)`
  queried with `List.lookup`; a `set` after a failed lookup becomes a cons.
* Object identity (referential equality) is modelled by allocation ids
  (`Nat`) drawn from a counter threaded through the state.
* `this.error(...)` appends a `Diag` to a diagnostics list in the state.
* `throw new Error(...)` and a failing `assert(...)` (both fatal in the
  source) are modelled as distinguished failure results.
-/

/-- Diagnostic codes emitted by the modelled code paths
    (enum `DiagnosticCode` in the source's diagnostics module). -/
inductive Diag where
  | duplicateIdentifier
  | cannotFindName
  | aClassMayOnlyExtendAnotherClass
  | classIsSealedAndCannotBeExtended
  | unmanagedClassesCannotExtendManaged
  | operationNotSupported
  | duplicateFunctionImplementation
  | stringLiteralExpected
  | expectedTypeArgumentsButGot (expected : Nat) (got : Nat)
  | expectedArgumentsButGot
  | exportDeclarationConflicts
  | moduleHasNoExportedMember
  | internalError
  deriving Repr, DecidableEq

/-- Kind of an operator overload (`enum OperatorKind`, program.ts lines 118-137). -/
inductive OperatorKind where
  | INVALID
  | INDEXED_GET
  | INDEXED_SET
  | ADD
  | SUB
  | MUL
  | DIV
  | REM
  | POW
  | AND
  | OR
  | XOR
  | EQ
  | NE
  | GT
  | GE
  | LT
  | LE
  deriving Repr, DecidableEq

/-- Translation of `operatorKindFromString` (program.ts lines 139-160).
    The TypeScript `switch` on the string is a chain of equality tests. -/
def operatorKindFromString (str : String) : OperatorKind :=
  if str = "[]" then .INDEXED_GET
  else if str = "[]=" then .INDEXED_SET
  else if str = "+" then .ADD
  else if str = "-" then .SUB
  else if str = "*" then .MUL
  else if str = "/" then .DIV
  else if str = "%" then .REM
  else if str = "**" then .POW
  else if str = "&" then .AND
  else if str = "|" then .OR
  else if str = "^" then .XOR
  else if str = "==" then .EQ
  else if str = "!=" then .NE
  else if str = ">" then .GT
  else if str = ">=" then .GE
  else if str = "<" then .LT
  else if str = "<=" then .LE
  else .INVALID

/-- The list of operator symbols recognized by `operatorKindFromString`,
    in source order. -/
def recognizedOperatorSymbols : List String :=
  ["[]", "[]=", "+", "-", "*", "/", "%", "**", "&", "|", "^",
   "==", "!=", ">", ">=", "<", "<="]

/-- A resolved class (`class Class`, program.ts lines 3340-3433), restricted
    to the attributes `isAssignableTo` reads: its identity and its `base`
    back-reference. `base : Class | null` is modelled by the two
    constructors (`root` for `base == null`). -/
inductive ClassT where
  | root (id : Nat)
  | derived (id : Nat) (base : ClassT)
  deriving Repr, DecidableEq

/-- Reads the `base` reference of a class (`Class#base`). -/
def ClassT.base : ClassT → Option ClassT
  | .root _ => none
  | .derived _ b => some b

/-- Translation of `Class#isAssignableTo` (program.ts lines 3410-3415):
    `var current = this; do if (current == target) return true;
    while (current = current.base); return false;`. -/
def ClassT.isAssignableTo (c target : ClassT) : Bool :=
  if c = target then true
  else
    match c with
    | .root _ => false
    | .derived _ b => b.isAssignableTo target

/-- The base chain of a class: the class itself, its base, its base's
    base, and so on (finite because `ClassT` is inductive). -/
def ClassT.baseChain : ClassT → List ClassT
  | .root i => [.root i]
  | .derived i b => .derived i b :: b.baseChain

/-- Argument of a decorator: either a string literal expression
    (`LiteralExpression` with `literalKind == STRING`) or any other
    expression shape. -/
inductive DecoratorArg where
  | strLit (value : String)
  | other
  deriving Repr, DecidableEq

/-- A decorator node whose `decoratorKind` is `OPERATOR`
    (`@operator(...)`); `arguments` is its argument list
    (a null argument list is modelled as `[]`, matching
    `decorator.arguments && decorator.arguments.length || 0`). -/
structure OperatorDecorator where
  args : List DecoratorArg
  deriving Repr, DecidableEq

/-- State touched by `Program#checkOperatorOverloads`: the class
    prototype's `overloadPrototypes` map (operator kind to function
    prototype id), each function prototype's `operatorKind` field
    (prototype id to kind), and the diagnostics sink. -/
structure OpCheckSt where
  overloadPrototypes : List (OperatorKind × Nat)
  operatorKinds : List (Nat × OperatorKind)
  diags : List Diag
  deriving Repr, DecidableEq

/-- Translation of the body of the decorator loop in
    `Program#checkOperatorOverloads` (program.ts lines 798-838) for one
    `OPERATOR` decorator attached to the function prototype `protoId`. -/
def checkOperatorOverload1 (dec : OperatorDecorator) (protoId : Nat)
    (st : OpCheckSt) : OpCheckSt :=
  match dec.args with
  | [arg] =>
    match arg with
    | .strLit v =>
      let kind := operatorKindFromString v
      if kind = .INVALID then
        { st with diags := .operationNotSupported :: st.diags }
      else
        match st.overloadPrototypes.lookup kind with
        | some _ => { st with diags := .duplicateFunctionImplementation :: st.diags }
        | none =>
          { st with
            overloadPrototypes := (kind, protoId) :: st.overloadPrototypes,
            operatorKinds := (protoId, kind) :: st.operatorKinds }
    | .other => { st with diags := .stringLiteralExpected :: st.diags }
  | _ => { st with diags := .expectedArgumentsButGot :: st.diags }

/-- Translation of `Program#checkOperatorOverloads` (program.ts lines
    788-841): fold over the method's `OPERATOR` decorators. -/
def checkOperatorOverloads (decorators : List OperatorDecorator)
    (protoId : Nat) (st : OpCheckSt) : OpCheckSt :=
  decorators.foldl (fun s d => checkOperatorOverload1 d protoId s) st

/-- 2^32: the modulus of the source's `u32` arithmetic. The running
    field-layout offset is declared `var memoryOffset: u32` (program.ts
    line 3184), so every increment of it wraps at 2^32. -/
def u32Size : Nat := 2 ^ 32

/-- Translation of the field-alignment `switch` in `ClassPrototype#resolve`
    (program.ts lines 3224-3239): aligns `memoryOffset` up to the field
    type's byte size. The `default: assert(false)` branch (fatal) is
    `none`. The truthiness tests `memoryOffset & 1` etc. become
    inequations with zero; `memoryOffset` is a `u32`, so the increments
    `++memoryOffset` and `(memoryOffset | t) + 1` wrap at 2^32
    (`% u32Size`). -/
def alignOffset (memoryOffset byteSize : Nat) : Option Nat :=
  match byteSize with
  | 1 => some memoryOffset
  | 2 => some (if memoryOffset &&& 1 ≠ 0 then (memoryOffset + 1) % u32Size
               else memoryOffset)
  | 4 => some (if memoryOffset &&& 3 ≠ 0 then ((memoryOffset ||| 3) + 1) % u32Size
               else memoryOffset)
  | 8 => some (if memoryOffset &&& 7 ≠ 0 then ((memoryOffset ||| 7) + 1) % u32Size
               else memoryOffset)
  | _ => none

/-- The field-placement steps of the member loop in `ClassPrototype#resolve`
    (program.ts lines 3207-3244), projected to the byte sizes of the
    successive field types: align, place the field at the aligned offset
    (`fieldInstance.memoryOffset = memoryOffset`), advance the running
    `u32` offset by the byte size (`memoryOffset += fieldType.byteSize`,
    wrapping at 2^32). Returns the placed `(offset, size)` pairs and the
    final running offset, or `none` when the fatal `assert(false)` branch
    is hit. -/
def layoutFields : List Nat → Nat → Option (List (Nat × Nat) × Nat)
  | [], off => some ([], off)
  | s :: rest, off =>
    match alignOffset off s with
    | none => none
    | some a =>
      match layoutFields rest ((a + s) % u32Size) with
      | none => none
      | some (ps, fin) => some ((a, s) :: ps, fin)

/-- Per-field conditions along a chain of placements starting from a
    running offset: each placed offset is a multiple of the field's byte
    size, is at least the running offset before it, and the running
    offset advances by exactly the byte size. -/
def chainOk : Nat → List (Nat × Nat) → Bool
  | _, [] => true
  | run, (a, s) :: rest =>
    decide (a % s = 0) && decide (run ≤ a) && chainOk (a + s) rest

/-- Translation of `typesToString` over canonical type strings (imported
    from types.ts): joins the canonical strings with commas. Types are
    represented throughout by their canonical string. -/
def typesToString (ts : List String) : String :=
  String.intercalate "," ts

/-- The instance-key canonicalization shared by `FunctionPrototype#resolve`
    (program.ts line 2544) and `ClassPrototype#resolve` (line 3120):
    `typeArguments ? typesToString(typeArguments) : ""`. -/
def canonKey : Option (List String) → String
  | some ts => typesToString ts
  | none => ""

/-- `typeArguments ? typeArguments.length : 0`, the argument count checked
    against `declaration.typeParameters.length` (program.ts lines 3163-3172). -/
def argCount : Option (List String) → Nat
  | some ts => ts.length
  | none => 0

/-- A resolved `Type` as consumed by `ClassPrototype#resolve`: its
    `classReference` (id, `SEALED`/`UNMANAGED` decorator flags and
    `currentMemoryOffset` of the referenced resolved class) and its
    `byteSize`. -/
structure TyRef where
  classRefId : Option Nat
  classSealed : Bool
  classUnmanaged : Bool
  classMemoryOffset : Nat
  byteSize : Nat
  deriving Repr, DecidableEq

/-- The part of `Program` that the modelled resolvers consult through
    `Program#resolveType`: a fixed mapping from type-node names to
    already-resolved types. -/
structure ResolveEnv where
  resolveTypeMap : List (String × TyRef)
  deriving Repr, DecidableEq

/-- A `FieldDeclaration` held by a `FieldPrototype`: its simple name and
    its optional type annotation (a missing annotation triggers
    `throw new Error("type expected")`, program.ts lines 3210-3212). -/
structure FieldProtoM where
  simpleName : String
  type : Option String
  deriving Repr, DecidableEq

/-- The parts of a `ClassDeclaration` read by `ClassPrototype#resolve`:
    the optional extends clause and the type parameter names. -/
structure ClassDeclM where
  extendsType : Option String
  typeParameters : List String
  deriving Repr, DecidableEq

/-- A `ClassPrototype` (program.ts lines 3085-3113), restricted to what
    `resolve` reads. `instanceMembers` is restricted to its
    `FIELD_PROTOTYPE` entries; method and property members and operator
    overloads only resolve further prototypes and do not touch the
    instance cache of this prototype, so they are elided from the model. -/
structure ClassProtoM where
  simpleName : String
  internalName : String
  declaration : ClassDeclM
  unmanagedFlag : Bool
  instanceFields : List FieldProtoM
  deriving Repr, DecidableEq

/-- The attributes of a resolved `Class` mutated by `ClassPrototype#resolve`:
    the `base` reference, the final `currentMemoryOffset`, and the laid-out
    fields (name, memoryOffset, byteSize). -/
structure ClassInfo where
  base : Option Nat
  currentMemoryOffset : Nat
  fields : List (String × Nat × Nat)
  deriving Repr, DecidableEq

/-- Program state threaded through `ClassPrototype#resolve`: the
    prototype's `instances` cache (canonical key to class id), the
    attribute store for allocated `Class` objects (id to attributes),
    the allocation counter standing in for object identity, and the
    diagnostics sink. -/
structure ResolveSt where
  instances : List (String × Nat)
  classes : List (Nat × ClassInfo)
  nextId : Nat
  diags : List Diag
  deriving Repr, DecidableEq

/-- Result of the extends-clause checks. -/
inductive BaseRes where
  | ok (base : Option TyRef)
  | err (d : Diag)
  deriving Repr, DecidableEq

/-- Translation of the extends-clause handling in `ClassPrototype#resolve`
    (program.ts lines 3134-3159): resolve `declaration.extendsType`
    (reports *Cannot find name* on failure), require a `classReference`
    (*A class may only extend another class*), reject a `SEALED` base
    (*Class X is sealed and cannot be extended*), reject a managed /
    unmanaged mix. -/
def resolveBaseClass (env : ResolveEnv) (p : ClassProtoM) : BaseRes :=
  match p.declaration.extendsType with
  | none => .ok none
  | some tname =>
    match env.resolveTypeMap.lookup tname with
    | none => .err .cannotFindName
    | some ty =>
      match ty.classRefId with
      | none => .err .aClassMayOnlyExtendAnotherClass
      | some _ =>
        if ty.classSealed then .err .classIsSealedAndCannotBeExtended
        else if ty.classUnmanaged ≠ p.unmanagedFlag then
          .err .unmanagedClassesCannotExtendManaged
        else .ok (some ty)

/-- `baseClass ? baseClass.currentMemoryOffset : 0` — the starting running
    offset for field layout (program.ts lines 3184-3186). -/
def baseMemoryOffset : Option TyRef → Nat
  | some b => b.classMemoryOffset
  | none => 0

/-- Translation of lines 3180-3182 of program.ts: construct the `Class`
    (a fresh id; its `base` set from the constructor argument, its
    `currentMemoryOffset` still at its initial 0) and insert it into the
    `instances` cache under the canonical key — before any member is
    resolved. -/
def classAlloc (instanceKey : String) (baseTy : Option TyRef)
    (st : ResolveSt) : Nat × ResolveSt :=
  let id := st.nextId
  (id, { st with
    nextId := id + 1,
    instances := (instanceKey, id) :: st.instances,
    classes := (id, { base := baseTy.bind (fun b => b.classRefId),
                      currentMemoryOffset := 0, fields := [] }) :: st.classes })

/-- Translation of the field-prototype arm of the member loop in
    `ClassPrototype#resolve` (program.ts lines 3202-3245): for each field,
    a missing type annotation throws (`none` result); a type that fails to
    resolve is reported and the field is skipped (`if (fieldType)` guard);
    otherwise the running `u32` offset is aligned via the byte-size
    switch, the field is placed at the aligned offset and the running
    offset advances by the byte size, wrapping at 2^32. Returns the
    laid-out fields and the final running offset. -/
def resolveFields (env : ResolveEnv) :
    List FieldProtoM → Nat → ResolveSt →
    Option (List (String × Nat × Nat) × Nat) × ResolveSt
  | [], off, st => (some ([], off), st)
  | f :: rest, off, st =>
    match f.type with
    | none => (none, st)
    | some tname =>
      match env.resolveTypeMap.lookup tname with
      | none =>
        resolveFields env rest off { st with diags := .cannotFindName :: st.diags }
      | some ty =>
        match alignOffset off ty.byteSize with
        | none => (none, st)
        | some a =>
          match resolveFields env rest ((a + ty.byteSize) % u32Size) st with
          | (none, st2) => (none, st2)
          | (some (fs, fin), st2) =>
            (some ((f.simpleName, a, ty.byteSize) :: fs, fin), st2)

/-- The member-resolution tail of `ClassPrototype#resolve` (program.ts
    lines 3184-3309) run after the instance was cached: lay out the
    instance fields starting at the base class's final offset and record
    the final `currentMemoryOffset` on the class
    (`instance.currentMemoryOffset = memoryOffset`, line 3308). -/
def classResolveMembers (env : ResolveEnv) (p : ClassProtoM) (id : Nat)
    (baseTy : Option TyRef) (st1 : ResolveSt) : Option Nat × ResolveSt :=
  match resolveFields env p.instanceFields (baseMemoryOffset baseTy) st1 with
  | (none, st2) => (none, st2)
  | (some (fs, fin), st2) =>
    (some id,
     { st2 with classes :=
        (id, { base := baseTy.bind (fun b => b.classRefId),
               currentMemoryOffset := fin, fields := fs }) :: st2.classes })

/-- Translation of `ClassPrototype#resolve` (program.ts lines 3116-3310):
    canonicalize the type arguments to the instance key and return the
    cached instance if present; run the extends-clause checks; check the
    type-argument arity (`throw new Error("type argument count mismatch")`
    is modelled as a reported internal error); allocate and cache the
    `Class`; then resolve members. -/
def classResolve (env : ResolveEnv) (p : ClassProtoM)
    (typeArguments : Option (List String)) (st : ResolveSt) :
    Option Nat × ResolveSt :=
  let instanceKey := canonKey typeArguments
  match st.instances.lookup instanceKey with
  | some inst => (some inst, st)
  | none =>
    match resolveBaseClass env p with
    | .err d => (none, { st with diags := d :: st.diags })
    | .ok baseTy =>
      if argCount typeArguments ≠ p.declaration.typeParameters.length then
        (none, { st with diags := .internalError :: st.diags })
      else
        let alloc := classAlloc instanceKey baseTy st
        classResolveMembers env p alloc.1 baseTy alloc.2

/-- A `FunctionPrototype` (program.ts lines 2508-2537), restricted to what
    `resolve` reads: flags, the captured class type arguments of a partial
    instance method, and the signature's parameter and return type-node
    names. -/
structure FuncProtoM where
  internalName : String
  isInstance : Bool
  isSetter : Bool
  isConstructor : Bool
  classTypeArguments : Option (List String)
  parameterTypes : List String
  returnType : String
  deriving Repr, DecidableEq

/-- Program state threaded through `FunctionPrototype#resolve`: the
    prototype's own `instances` cache, the allocation counter, the
    diagnostics sink, and the owner class prototype's state (touched when
    an instance method resolves its class, program.ts lines 2599-2606). -/
structure FuncResolveSt where
  instances : List (String × Nat)
  nextId : Nat
  diags : List Diag
  classSt : ResolveSt
  deriving Repr, DecidableEq

/-- Sample resolver environment: a single primitive type `i32` of byte
    size 4. -/
def sampleEnv : ResolveEnv :=
  { resolveTypeMap :=
      [("i32", { classRefId := none, classSealed := false,
                 classUnmanaged := false, classMemoryOffset := 0,
                 byteSize := 4 })] }

/-- Sample class prototype: `class Box { value: i32 }`. -/
def sampleClassProto : ClassProtoM :=
  { simpleName := "Box", internalName := "src/Box",
    declaration := { extendsType := none, typeParameters := [] },
    unmanagedFlag := false,
    instanceFields := [{ simpleName := "value", type := some "i32" }] }

/-- Sample environment whose type `B` references a resolved class carrying
    the `SEALED` decorator flag. -/
def sealedEnv : ResolveEnv :=
  { resolveTypeMap :=
      [("B", { classRefId := some 9, classSealed := true,
               classUnmanaged := false, classMemoryOffset := 0,
               byteSize := 4 })] }

/-- Sample derived prototype: `class C extends B {}`. -/
def derivedProto : ClassProtoM :=
  { simpleName := "C", internalName := "src/C",
    declaration := { extendsType := some "B", typeParameters := [] },
    unmanagedFlag := false, instanceFields := [] }

/-- The empty program state for `ClassPrototype#resolve`. -/
def emptySt : ResolveSt :=
  { instances := [], classes := [], nextId := 0, diags := [] }

/-- Sample function prototype: a free function `(x: i32) => i32`. -/
def sampleFuncProto : FuncProtoM :=
  { internalName := "src/f", isInstance := false, isSetter := false,
    isConstructor := false, classTypeArguments := none,
    parameterTypes := ["i32"], returnType := "i32" }

/-- The empty program state for `FunctionPrototype#resolve`. -/
def emptyFuncSt : FuncResolveSt :=
  { instances := [], nextId := 0, diags := [], classSt := emptySt }

/-- A `QueuedExport` as read by `Program#tryResolveImport` (program.ts
    lines 95-101): the re-export flag and the referenced name. -/
structure QueuedExportM where
  isReExport : Bool
  referencedName : String
  deriving Repr, DecidableEq

/-- Translation of `Program#tryResolveImport` (program.ts lines 426-442),
    with explicit fuel for its `do { ... } while (true)` loop: each
    `isReExport` link consumes one unit of fuel; a `none` result means
    the loop has not returned within the given fuel (for every fuel:
    the loop never returns). `some (some e)` and `some none` are the
    source's `return element` and `return null`. The source loop has no
    cycle guard. -/
def tryResolveImport (fileLevelExports : List (String × Nat))
    (elementsLookup : List (String × Nat))
    (queuedExports : List (String × QueuedExportM)) :
    Nat → String → Option (Option Nat)
  | 0, _ => none
  | fuel + 1, referencedName =>
    match fileLevelExports.lookup referencedName with
    | some element => some (some element)
    | none =>
      match queuedExports.lookup referencedName with
      | none => some none
      | some queuedExport =>
        if queuedExport.isReExport then
          tryResolveImport fileLevelExports elementsLookup queuedExports
            fuel queuedExport.referencedName
        else
          some (elementsLookup.lookup queuedExport.referencedName)

/-- A queued-exports map whose `isReExport` links form a cycle: `a`
    re-exports `b` and `b` re-exports `a`, with neither name present in
    `fileLevelExports`. -/
def cyclicQueuedExports : List (String × QueuedExportM) :=
  [("a", { isReExport := true, referencedName := "b" }),
   ("b", { isReExport := true, referencedName := "a" })]

/-- `ParameterKind` of a parameter node (parser): a plain parameter,
    an initialized (optional) parameter, or a rest parameter. -/
inductive ParameterKind where
  | DEFAULT
  | OPTIONAL
  | REST
  deriving Repr, DecidableEq

/-- A parameter node of a signature node: name, kind, and optional type
    annotation (`parameterTypeNode.type`, asserted present at
    program.ts line 1646). -/
structure ParamNode where
  name : String
  parameterKind : ParameterKind
  type : Option String
  deriving Repr, DecidableEq

/-- A `SignatureNode`: optional explicit `this` type, parameters, and
    optional return type annotation. -/
structure SignatureNodeM where
  explicitThisType : Option String
  parameterTypes : List ParamNode
  returnType : Option String
  deriving Repr, DecidableEq

/-- The attributes of a resolved `Signature` relevant here: the
    `requiredParameters` count, the `hasRest` flag, and the resolved
    return type (canonical name; `"void"` when the annotation is
    absent). -/
structure SignatureM where
  requiredParameters : Nat
  hasRest : Bool
  returnType : String
  deriving Repr, DecidableEq

/-- Outcome of `Program#resolveSignature`: success, a reported
    type-resolution failure (`return null`), or a failed `assert`
    (fatal). -/
inductive SigResult where
  | ok (sig : SignatureM)
  | typeError
  | assertFail
  deriving Repr, DecidableEq

/-- Outcome of the parameter loop of `Program#resolveSignature`. -/
inductive ParamsRes where
  | ok (requiredParameters : Nat) (hasRest : Bool)
  | typeError
  | assertFail
  deriving Repr, DecidableEq

/-- Translation of the parameter loop of `Program#resolveSignature`
    (program.ts lines 1632-1653): per parameter, the kind switch runs
    first — `DEFAULT` sets `requiredParameters = i + 1`; `REST` runs
    `assert(i == numParameters)` and then sets `hasRest` — and the
    parameter's type annotation (asserted present) is then resolved
    (reports on failure). `i` is the current index. -/
def resolveSigParams (env : ResolveEnv) (numParameters : Nat) :
    List ParamNode → Nat → Nat → Bool → ParamsRes
  | [], _, required, hasRest => .ok required hasRest
  | p :: rest, i, required, hasRest =>
    let step : Option (Nat × Bool) :=
      match p.parameterKind with
      | .DEFAULT => some (i + 1, hasRest)
      | .OPTIONAL => some (required, hasRest)
      | .REST => if i = numParameters then some (required, true) else none
    match step with
    | none => .assertFail
    | some (required2, hasRest2) =>
      match p.type with
      | none => .assertFail
      | some t =>
        match env.resolveTypeMap.lookup t with
        | none => .typeError
        | some _ => resolveSigParams env numParameters rest (i + 1) required2 hasRest2

/-- The tail of `Program#resolveSignature` after the explicit `this`
    type: run the parameter loop, then resolve the return type, which
    defaults to `void` when the annotation is absent (program.ts lines
    1654-1665). -/
def resolveSignatureRest (env : ResolveEnv) (node : SignatureNodeM) : SigResult :=
  match resolveSigParams env node.parameterTypes.length node.parameterTypes
      0 0 false with
  | .assertFail => .assertFail
  | .typeError => .typeError
  | .ok required hasRest =>
    match node.returnType with
    | some rname =>
      match env.resolveTypeMap.lookup rname with
      | none => .typeError
      | some _ =>
        .ok { requiredParameters := required, hasRest := hasRest,
              returnType := rname }
    | none =>
      .ok { requiredParameters := required, hasRest := hasRest,
            returnType := "void" }

/-- Translation of `Program#resolveSignature` (program.ts lines
    1611-1671): resolve the explicit `this` type if present, then the
    parameters and the return type. -/
def resolveSignature (env : ResolveEnv) (node : SignatureNodeM) : SigResult :=
  match node.explicitThisType with
  | some tname =>
    match env.resolveTypeMap.lookup tname with
    | none => .typeError
    | some _ => resolveSignatureRest env node
  | none => resolveSignatureRest env node

/-- A type node as supplied to `Program#resolveTypeArguments`: its name. -/
structure TypeNodeM where
  name : String
  deriving Repr, DecidableEq

/-- `typeArgumentNodes ? typeArgumentNodes.length : 0` (program.ts
    line 1759). -/
def nodeArgCount : Option (List TypeNodeM) → Nat
  | some ns => ns.length
  | none => 0

/-- The element-wise type resolution loop of `Program#resolveTypeArguments`
    (program.ts lines 1778-1789): each node must resolve (reports on
    failure). -/
def resolveTypeArgsList (env : ResolveEnv) :
    List TypeNodeM → List Diag → Option (List TyRef) × List Diag
  | [], ds => (some [], ds)
  | n :: rest, ds =>
    match env.resolveTypeMap.lookup n.name with
    | none => (none, .cannotFindName :: ds)
    | some ty =>
      match resolveTypeArgsList env rest ds with
      | (none, ds2) => (none, ds2)
      | (some ts, ds2) => (some (ty :: ts), ds2)

/-- Translation of `Program#resolveTypeArguments` (program.ts lines
    1752-1790): on an arity mismatch, *Expected N type arguments but
    got M* is emitted only when the argument count is non-zero, or when
    it is zero and an `alternativeReportNode` was provided; the function
    returns bottom in every mismatch case. On a match, the arguments are
    resolved element-wise. -/
def resolveTypeArguments (env : ResolveEnv) (typeParameters : List String)
    (typeArgumentNodes : Option (List TypeNodeM))
    (alternativeReportNode : Bool) (diags : List Diag) :
    Option (List TyRef) × List Diag :=
  let parameterCount := typeParameters.length
  let argumentCount := nodeArgCount typeArgumentNodes
  if parameterCount ≠ argumentCount then
    if argumentCount ≠ 0 then
      (none, .expectedTypeArgumentsButGot parameterCount argumentCount :: diags)
    else if alternativeReportNode then
      (none, .expectedTypeArgumentsButGot parameterCount 0 :: diags)
    else
      (none, diags)
  else
    match typeArgumentNodes with
    | none => (some [], diags)
    | some ns => resolveTypeArgsList env ns diags

/-- A parsed source as read by the initializer: its normalized internal
    path and the `isEntry` / `isLibrary` bits. -/
structure SourceM where
  internalPath : String
  isEntry : Bool
  isLibrary : Bool
  deriving Repr, DecidableEq

/-- Top-level statements of the initializer model, restricted to the
    statement kinds the export claims need: class declarations (with
    their export modifier) and export statements without a source path
    (`export { name as externalName }`). -/
inductive StmtM where
  | classDecl (name : String) (exported : Bool)
  | exportStmt (members : List (String × String))
  deriving Repr, DecidableEq

/-- A `QueuedExport` as created by `initializeExport` for a local export
    (program.ts lines 1121-1125) together with the member data the drain
    phase reads. -/
structure QueuedExportStmt where
  isReExport : Bool
  referencedName : String
  memberName : String
  memberExternalName : String
  memberIsLibrary : Bool
  deriving Repr, DecidableEq

/-- Program state threaded through the initializer model: the element
    lookup, the two export tables, the set of element ids carrying
    `CommonFlags.MODULE_EXPORT`, the `internalName` fields (mutable via
    `setExportAndCheckLibrary`), the queued exports, the allocation
    counter and the diagnostics sink. -/
structure ProgSt where
  elementsLookup : List (String × Nat)
  fileLevelExports : List (String × Nat)
  moduleLevelExports : List (String × Nat)
  moduleExportFlags : List Nat
  internalNames : List (Nat × String)
  queuedExports : List (String × QueuedExportStmt)
  nextId : Nat
  diags : List Diag
  deriving Repr, DecidableEq

/-- Translation of `Program#setExportAndCheckLibrary` (program.ts lines
    1063-1080): set the file-level export, and for a library source add
    a global alias under the identifier text (rewriting the element's
    internal name). Note that this function never touches
    `moduleLevelExports` nor sets `MODULE_EXPORT`. -/
def setExportAndCheckLibrary (name : String) (element : Nat)
    (identifierText : String) (identifierIsLibrary : Bool)
    (st : ProgSt) : ProgSt :=
  let st1 := { st with fileLevelExports := (name, element) :: st.fileLevelExports }
  if identifierIsLibrary then
    if (st1.elementsLookup.lookup identifierText).isSome then
      { st1 with diags := .exportDeclarationConflicts :: st1.diags }
    else
      { st1 with
        internalNames := (element, identifierText) :: st1.internalNames,
        elementsLookup := (identifierText, element) :: st1.elementsLookup }
  else st1

/-- Translation of `Program#initializeClass` (program.ts lines 506-629)
    restricted to prototype creation and export promotion (lines
    512-537 and 582-603; decorators, members and namespaces elided):
    duplicate internal name reports; an exported declaration becomes a
    file-level export under its internal name; if the source `isEntry`
    it additionally becomes a module-level export and receives
    `MODULE_EXPORT`, with conflict checks on both tables. -/
def initializeClassM (src : SourceM) (name : String) (exported : Bool)
    (st : ProgSt) : ProgSt :=
  let internalName := src.internalPath ++ "/" ++ name
  if (st.elementsLookup.lookup internalName).isSome then
    { st with diags := .duplicateIdentifier :: st.diags }
  else
    let id := st.nextId
    let st1 := { st with
      nextId := id + 1,
      elementsLookup := (internalName, id) :: st.elementsLookup,
      internalNames := (id, internalName) :: st.internalNames }
    if exported then
      if (st1.fileLevelExports.lookup internalName).isSome then
        { st1 with diags := .exportDeclarationConflicts :: st1.diags }
      else
        let st2 := { st1 with
          fileLevelExports := (internalName, id) :: st1.fileLevelExports }
        if src.isEntry then
          if (st2.moduleLevelExports.lookup internalName).isSome then
            { st2 with diags := .exportDeclarationConflicts :: st2.diags }
          else
            { st2 with
              moduleExportFlags := id :: st2.moduleExportFlags,
              moduleLevelExports := (internalName, id) :: st2.moduleLevelExports }
        else st2
    else st1

/-- Translation of `Program#initializeExport` for a local export member
    (`internalPath == null`, program.ts lines 1087-1125): conflict check
    on the external name; resolve right away through
    `setExportAndCheckLibrary` if the referenced element exists;
    otherwise queue a non-re-export `QueuedExport`. (The re-export path,
    lines 1128-1185, routes resolutions through the same
    `setExportAndCheckLibrary` and is elided.) -/
def initializeExportM (src : SourceM) (memberName memberExternalName : String)
    (st : ProgSt) : ProgSt :=
  let externalName := src.internalPath ++ "/" ++ memberExternalName
  if (st.fileLevelExports.lookup externalName).isSome then
    { st with diags := .exportDeclarationConflicts :: st.diags }
  else
    let referencedName := src.internalPath ++ "/" ++ memberName
    match st.elementsLookup.lookup referencedName with
    | some el =>
      setExportAndCheckLibrary externalName el memberExternalName
        src.isLibrary st
    | none =>
      if (st.queuedExports.lookup externalName).isSome then
        { st with diags := .exportDeclarationConflicts :: st.diags }
      else
        { st with queuedExports :=
            (externalName,
             { isReExport := false, referencedName := referencedName,
               memberName := memberName,
               memberExternalName := memberExternalName,
               memberIsLibrary := src.isLibrary }) :: st.queuedExports }

/-- Translation of the queued-export drain for a non-re-export entry
    (program.ts lines 341-359): look the referenced name up in
    `elementsLookup` (falling back to the member's simple name for
    library re-exports) and publish via `setExportAndCheckLibrary`;
    report *Cannot find name* on miss. -/
def drainQueuedExport (exportName : String) (q : QueuedExportStmt)
    (st : ProgSt) : ProgSt :=
  match st.elementsLookup.lookup q.referencedName with
  | some el =>
    setExportAndCheckLibrary exportName el q.memberExternalName
      q.memberIsLibrary st
  | none =>
    match st.elementsLookup.lookup q.memberName with
    | some el =>
      setExportAndCheckLibrary exportName el q.memberExternalName
        q.memberIsLibrary st
    | none => { st with diags := .cannotFindName :: st.diags }

/-- The export drain loop (program.ts lines 319-362) over the queued
    exports in insertion order. -/
def drainQueuedExports (qs : List (String × QueuedExportStmt))
    (st : ProgSt) : ProgSt :=
  qs.foldl (fun s kv => drainQueuedExport kv.1 kv.2 s) st

/-- Statement dispatch of the initial pass (program.ts lines 248-293),
    restricted to the modelled statement kinds. -/
def initStatement (src : SourceM) (st : ProgSt) : StmtM → ProgSt
  | .classDecl name exported => initializeClassM src name exported st
  | .exportStmt members =>
    members.foldl (fun s m => initializeExportM src m.1 m.2 s) st

/-- The initializer pipeline (program.ts `Program#initialize`):
    the statement pass source by source, then the export drain phase.
    (The import drain and extends resolution are elided.) -/
def initializeProgram (sources : List (SourceM × List StmtM)) : ProgSt :=
  let st0 : ProgSt :=
    { elementsLookup := [], fileLevelExports := [], moduleLevelExports := [],
      moduleExportFlags := [], internalNames := [], queuedExports := [],
      nextId := 0, diags := [] }
  let st1 := sources.foldl
    (fun s p => p.2.foldl (fun s2 stmt => initStatement p.1 s2 stmt) s) st0
  drainQueuedExports st1.queuedExports.reverse st1

/-- The empty initializer state. -/
def emptyProgSt : ProgSt :=
  { elementsLookup := [], fileLevelExports := [], moduleLevelExports := [],
    moduleExportFlags := [], internalNames := [], queuedExports := [],
    nextId := 0, diags := [] }

/-- An entry source named `index`. -/
def entrySource : SourceM :=
  { internalPath := "index", isEntry := true, isLibrary := false }

/-- An entry source whose export statement precedes the (unexported)
    declaration of `A`, so the export is established during the drain
    phase via the queued export. -/
def c4Program : List (SourceM × List StmtM) :=
  [(entrySource, [.exportStmt [("A", "A")], .classDecl "A" false])]

/-! ## Theorems -/

theorem and_mask_eq_mod (m k : Nat) : m &&& (2 ^ k - 1) = m % 2 ^ k := by
  apply Nat.eq_of_testBit_eq
  intro i
  rw [Nat.testBit_and, Nat.testBit_two_pow_sub_one, Nat.testBit_mod_two_pow,
    Bool.and_comm]

theorem or_mask_mod (m k : Nat) : (m ||| (2 ^ k - 1)) % 2 ^ k = 2 ^ k - 1 := by
  rw [← and_mask_eq_mod]
  apply Nat.eq_of_testBit_eq
  intro i
  rw [Nat.testBit_and, Nat.testBit_or, Nat.testBit_two_pow_sub_one]
  cases Nat.testBit m i <;> cases hi : decide (i < k) <;> simp

theorem le_or_mask (m n : Nat) : m ≤ m ||| n :=
  Nat.le_of_testBit fun i h => by rw [Nat.testBit_or, h, Bool.true_or]

theorem shiftRight_or_distrib (a b k : Nat) :
    (a ||| b) >>> k = (a >>> k) ||| (b >>> k) := by
  apply Nat.eq_of_testBit_eq
  intro i
  simp [Nat.testBit_shiftRight, Nat.testBit_or]

theorem or_mask_div (m k : Nat) :
    (m ||| (2 ^ k - 1)) / 2 ^ k = m / 2 ^ k := by
  rw [← Nat.shiftRight_eq_div_pow, ← Nat.shiftRight_eq_div_pow,
    shiftRight_or_distrib]
  have h0 : (2 ^ k - 1) >>> k = 0 := by
    rw [Nat.shiftRight_eq_div_pow]
    exact Nat.div_eq_of_lt (Nat.sub_lt (by positivity) (by norm_num))
  rw [h0, Nat.or_zero]

theorem or_mask_eq (m k : Nat) :
    m ||| (2 ^ k - 1) = m / 2 ^ k * 2 ^ k + (2 ^ k - 1) := by
  conv_lhs => rw [← Nat.div_add_mod (m ||| (2 ^ k - 1)) (2 ^ k)]
  rw [or_mask_div, or_mask_mod]
  ring

theorem alignOffset_mod (off s : Nat) (h : s = 1 ∨ s = 2 ∨ s = 4 ∨ s = 8) :
    ∃ a, alignOffset off s = some a ∧ a % s = 0 := by
  rcases h with h | h | h | h <;> subst h
  · exact ⟨off, rfl, Nat.mod_one off⟩
  · have hm : off &&& 1 = off % 2 := by
      have h1 : (1:Nat) = 2 ^ 1 - 1 := by norm_num
      have h2 : (2:Nat) = 2 ^ 1 := by norm_num
      conv =>
        lhs
        rw [h1]
      rw [and_mask_eq_mod, ← h2]
    by_cases c : off &&& 1 ≠ 0
    · refine ⟨(off + 1) % u32Size, by simp only [alignOffset, if_pos c], ?_⟩
      rw [Nat.mod_mod_of_dvd _ (by norm_num [u32Size])]
      have c2 : off % 2 ≠ 0 := hm ▸ c
      omega
    · refine ⟨off, by simp only [alignOffset, if_neg c], ?_⟩
      have c2 : ¬off % 2 ≠ 0 := hm ▸ c
      omega
  · have hor : (off ||| 3) % 4 = 3 := by
      have h3 : (3:Nat) = 2 ^ 2 - 1 := by norm_num
      have h4 : (4:Nat) = 2 ^ 2 := by norm_num
      rw [h3, h4, or_mask_mod]
    have hm : off &&& 3 = off % 4 := by
      have h3 : (3:Nat) = 2 ^ 2 - 1 := by norm_num
      have h4 : (4:Nat) = 2 ^ 2 := by norm_num
      rw [h3, and_mask_eq_mod, ← h4]
    by_cases c : off &&& 3 ≠ 0
    · refine ⟨((off ||| 3) + 1) % u32Size, by simp only [alignOffset, if_pos c], ?_⟩
      rw [Nat.mod_mod_of_dvd _ (by norm_num [u32Size])]
      omega
    · refine ⟨off, by simp only [alignOffset, if_neg c], ?_⟩
      have c2 : ¬off % 4 ≠ 0 := hm ▸ c
      omega
  · have hor : (off ||| 7) % 8 = 7 := by
      have h7 : (7:Nat) = 2 ^ 3 - 1 := by norm_num
      have h8 : (8:Nat) = 2 ^ 3 := by norm_num
      rw [h7, h8, or_mask_mod]
    have hm : off &&& 7 = off % 8 := by
      have h7 : (7:Nat) = 2 ^ 3 - 1 := by norm_num
      have h8 : (8:Nat) = 2 ^ 3 := by norm_num
      rw [h7, and_mask_eq_mod, ← h8]
    by_cases c : off &&& 7 ≠ 0
    · refine ⟨((off ||| 7) + 1) % u32Size, by simp only [alignOffset, if_pos c], ?_⟩
      rw [Nat.mod_mod_of_dvd _ (by norm_num [u32Size])]
      omega
    · refine ⟨off, by simp only [alignOffset, if_neg c], ?_⟩
      have c2 : ¬off % 8 ≠ 0 := hm ▸ c
      omega

theorem alignOffset_spec (off s : Nat) (h : s = 1 ∨ s = 2 ∨ s = 4 ∨ s = 8)
    (hb : off + (s - 1) < u32Size) :
    ∃ a, alignOffset off s = some a ∧ a % s = 0 ∧ off ≤ a ∧
      a ≤ off + (s - 1) := by
  rcases h with h | h | h | h <;> subst h
  · exact ⟨off, rfl, Nat.mod_one off, Nat.le_refl off, by omega⟩
  · have hm : off &&& 1 = off % 2 := by
      have h1 : (1:Nat) = 2 ^ 1 - 1 := by norm_num
      have h2 : (2:Nat) = 2 ^ 1 := by norm_num
      conv =>
        lhs
        rw [h1]
      rw [and_mask_eq_mod, ← h2]
    by_cases c : off &&& 1 ≠ 0
    · have c2 : off % 2 ≠ 0 := hm ▸ c
      have hlt : off + 1 < u32Size := by omega
      refine ⟨off + 1, ?_, by omega, by omega, by omega⟩
      simp only [alignOffset, if_pos c]
      rw [Nat.mod_eq_of_lt hlt]
    · have c2 : ¬off % 2 ≠ 0 := hm ▸ c
      exact ⟨off, by simp only [alignOffset, if_neg c], by omega,
        Nat.le_refl off, by omega⟩
  · have hm : off &&& 3 = off % 4 := by
      have h3 : (3:Nat) = 2 ^ 2 - 1 := by norm_num
      have h4 : (4:Nat) = 2 ^ 2 := by norm_num
      rw [h3, and_mask_eq_mod, ← h4]
    have horval : off ||| 3 = off / 4 * 4 + 3 := by
      have h3 : (3:Nat) = 2 ^ 2 - 1 := by norm_num
      have h4 : (4:Nat) = 2 ^ 2 := by norm_num
      rw [h3, h4, or_mask_eq]
    by_cases c : off &&& 3 ≠ 0
    · have c2 : off % 4 ≠ 0 := hm ▸ c
      have hlt : (off ||| 3) + 1 < u32Size := by omega
      refine ⟨(off ||| 3) + 1, ?_, by omega, by omega, by omega⟩
      simp only [alignOffset, if_pos c]
      rw [Nat.mod_eq_of_lt hlt]
    · have c2 : ¬off % 4 ≠ 0 := hm ▸ c
      exact ⟨off, by simp only [alignOffset, if_neg c], by omega,
        Nat.le_refl off, by omega⟩
  · have hm : off &&& 7 = off % 8 := by
      have h7 : (7:Nat) = 2 ^ 3 - 1 := by norm_num
      have h8 : (8:Nat) = 2 ^ 3 := by norm_num
      rw [h7, and_mask_eq_mod, ← h8]
    have horval : off ||| 7 = off / 8 * 8 + 7 := by
      have h7 : (7:Nat) = 2 ^ 3 - 1 := by norm_num
      have h8 : (8:Nat) = 2 ^ 3 := by norm_num
      rw [h7, h8, or_mask_eq]
    by_cases c : off &&& 7 ≠ 0
    · have c2 : off % 8 ≠ 0 := hm ▸ c
      have hlt : (off ||| 7) + 1 < u32Size := by omega
      refine ⟨(off ||| 7) + 1, ?_, by omega, by omega, by omega⟩
      simp only [alignOffset, if_pos c]
      rw [Nat.mod_eq_of_lt hlt]
    · have c2 : ¬off % 8 ≠ 0 := hm ▸ c
      exact ⟨off, by simp only [alignOffset, if_neg c], by omega,
        Nat.le_refl off, by omega⟩

/-- C2 counterexample: starting from a running u32 offset of 2^32 - 1,
    laying out a single 4-byte field wraps: `(memoryOffset | 3) + 1`
    overflows to 0, so the placed offset 0 lies below the running offset
    2^32 - 1 and monotone packing fails (the placed offset is still
    4-aligned). -/
theorem c2_counterexample :
    layoutFields [4] (u32Size - 1) = some ([(0, 4)], 4) ∧
    chainOk (u32Size - 1) [(0, 4)] = false := by
  constructor <;> decide

/-- C2 (amended): for fields whose byte sizes are in 1, 2, 4, 8, the
    layout loop of `ClassPrototype#resolve` succeeds and every placed
    field offset is a multiple of its byte size — this holds even across
    u32 wrap-around, since every such byte size divides 2^32. Monotone
    packing (each field's offset at least the running offset before it,
    and the running offset advancing by exactly the byte size)
    additionally requires the layout to stay within the u32 range: when
    the start offset plus the worst-case growth of each field (2s - 1)
    stays below 2^32, no step wraps and the chain conditions hold. -/
theorem c2_field_alignment :
    (∀ (sizes : List Nat) (off : Nat),
      (∀ s ∈ sizes, s = 1 ∨ s = 2 ∨ s = 4 ∨ s = 8) →
      ∃ ps fin, layoutFields sizes off = some (ps, fin) ∧
        ps.all (fun p => p.1 % p.2 == 0) = true) ∧
    (∀ (sizes : List Nat) (off : Nat),
      (∀ s ∈ sizes, s = 1 ∨ s = 2 ∨ s = 4 ∨ s = 8) →
      off + (sizes.map (fun s => 2 * s - 1)).sum < u32Size →
      ∃ ps fin, layoutFields sizes off = some (ps, fin) ∧
        chainOk off ps = true) := by
  constructor
  · intro sizes
    induction sizes with
    | nil => exact fun off _ => ⟨[], off, rfl, rfl⟩
    | cons s rest ih =>
      intro off h
      obtain ⟨a, ha, hmod⟩ :=
        alignOffset_mod off s (h s (List.mem_cons_self _ _))
      obtain ⟨ps, fin, hl, hall⟩ :=
        ih ((a + s) % u32Size) (fun x hx => h x (List.mem_cons_of_mem _ hx))
      refine ⟨(a, s) :: ps, fin, ?_, ?_⟩
      · simp [layoutFields, ha, hl]
      · simp [List.all_cons, hmod, hall]
  · intro sizes
    induction sizes with
    | nil => exact fun off _ _ => ⟨[], off, rfl, rfl⟩
    | cons s rest ih =>
      intro off h hb
      have hs := h s (List.mem_cons_self _ _)
      have hs1 : 1 ≤ s := by rcases hs with h2 | h2 | h2 | h2 <;> omega
      simp only [List.map_cons, List.sum_cons] at hb
      have hb1 : off + (s - 1) < u32Size := by omega
      obtain ⟨a, ha, hmod, hlo, hhi⟩ := alignOffset_spec off s hs hb1
      have hadv : (a + s) % u32Size = a + s := by
        apply Nat.mod_eq_of_lt
        omega
      obtain ⟨ps, fin, hl, hc⟩ := ih (a + s)
        (fun x hx => h x (List.mem_cons_of_mem _ hx)) (by omega)
      rw [← hadv] at hl
      refine ⟨(a, s) :: ps, fin, ?_, ?_⟩
      · simp [layoutFields, ha, hl]
      · rw [← hadv] at hc
        simp [chainOk, hmod, hlo]
        rw [hadv] at hc
        exact hc

theorem c2_witness :
    ∃ ps fin, layoutFields [1, 4, 2, 8] 0 = some (ps, fin) ∧
      chainOk 0 ps = true :=
  c2_field_alignment.2 [1, 4, 2, 8] 0 (by decide) (by decide)

theorem ClassT.isAssignableTo_iff_mem_baseChain (c t : ClassT) :
    c.isAssignableTo t = true ↔ t ∈ c.baseChain := by
  induction c with
  | root i =>
    by_cases h : ClassT.root i = t
    · simp [ClassT.isAssignableTo, ClassT.baseChain, h]
    · have h2 : t ≠ ClassT.root i := fun he => h he.symm
      simp [ClassT.isAssignableTo, ClassT.baseChain, h, h2]
  | derived i b ih =>
    by_cases h : ClassT.derived i b = t
    · simp [ClassT.isAssignableTo, ClassT.baseChain, h]
    · have h2 : t ≠ ClassT.derived i b := fun he => h he.symm
      simp [ClassT.isAssignableTo, ClassT.baseChain, h, h2, ih]

theorem ClassT.baseChain_trans {c t u : ClassT}
    (h1 : t ∈ c.baseChain) (h2 : u ∈ t.baseChain) : u ∈ c.baseChain := by
  induction c with
  | root i =>
    simp [ClassT.baseChain] at h1
    subst h1
    simpa [ClassT.baseChain] using h2
  | derived i b ih =>
    simp [ClassT.baseChain] at h1
    rcases h1 with h1 | h1
    · subst h1; exact h2
    · exact List.mem_cons_of_mem _ (ih h1)

/-- C10: `Class#isAssignableTo` returns true exactly when the target appears
    on the receiver's base chain; in particular it is reflexive and
    transitive. -/
theorem c10_isAssignableTo_base_chain :
    (∀ c t : ClassT, c.isAssignableTo t = true ↔ t ∈ c.baseChain) ∧
    (∀ c : ClassT, c.isAssignableTo c = true) ∧
    (∀ a b c : ClassT, a.isAssignableTo b = true → b.isAssignableTo c = true →
      a.isAssignableTo c = true) := by
  refine ⟨ClassT.isAssignableTo_iff_mem_baseChain, ?_, ?_⟩
  · intro c
    cases c <;> simp [ClassT.isAssignableTo]
  · intro a b c hab hbc
    rw [ClassT.isAssignableTo_iff_mem_baseChain] at hab hbc ⊢
    exact ClassT.baseChain_trans hab hbc

theorem c10_witness :
    (ClassT.derived 2 (ClassT.derived 1 (ClassT.root 0))).isAssignableTo
      (ClassT.root 0) = true :=
  c10_isAssignableTo_base_chain.2.2
    (ClassT.derived 2 (ClassT.derived 1 (ClassT.root 0)))
    (ClassT.derived 1 (ClassT.root 0))
    (ClassT.root 0)
    (by decide) (by decide)

theorem operatorKindFromString_eq_invalid_of_not_mem (s : String)
    (h : s ∉ recognizedOperatorSymbols) : operatorKindFromString s = .INVALID := by
  simp only [recognizedOperatorSymbols, List.mem_cons, List.not_mem_nil,
    or_false, not_or] at h
  obtain ⟨h1, h2, h3, h4, h5, h6, h7, h8, h9, h10, h11, h12, h13, h14, h15,
    h16, h17⟩ := h
  simp only [operatorKindFromString, if_neg h1, if_neg h2, if_neg h3,
    if_neg h4, if_neg h5, if_neg h6, if_neg h7, if_neg h8, if_neg h9,
    if_neg h10, if_neg h11, if_neg h12, if_neg h13, if_neg h14, if_neg h15,
    if_neg h16, if_neg h17]

theorem operatorKindFromString_ne_invalid_of_mem :
    ∀ s ∈ recognizedOperatorSymbols, operatorKindFromString s ≠ .INVALID := by
  decide

/-- C6: the `@operator` decorator recognizes exactly the seventeen listed
    symbols, each mapping to a distinct `OperatorKind`; a recognized fresh
    symbol sets the owning prototype's `operatorKind` and the class's
    overload map; an unknown symbol emits *Operation not supported*; a
    symbol whose kind is already present emits *Duplicate function
    implementation* and the map keeps the first prototype. -/
theorem c6_operator_decorator :
    (∀ s, operatorKindFromString s ≠ .INVALID ↔ s ∈ recognizedOperatorSymbols) ∧
    ((recognizedOperatorSymbols.map operatorKindFromString).Pairwise (· ≠ ·)) ∧
    (∀ v pid st, operatorKindFromString v = .INVALID →
      checkOperatorOverload1 ⟨[.strLit v]⟩ pid st =
        { st with diags := .operationNotSupported :: st.diags }) ∧
    (∀ v pid st k, operatorKindFromString v = k → k ≠ .INVALID →
      st.overloadPrototypes.lookup k = none →
      checkOperatorOverload1 ⟨[.strLit v]⟩ pid st =
        { st with
          overloadPrototypes := (k, pid) :: st.overloadPrototypes,
          operatorKinds := (pid, k) :: st.operatorKinds }) ∧
    (∀ v pid pid0 st k, operatorKindFromString v = k → k ≠ .INVALID →
      st.overloadPrototypes.lookup k = some pid0 →
      checkOperatorOverload1 ⟨[.strLit v]⟩ pid st =
        { st with diags := .duplicateFunctionImplementation :: st.diags } ∧
      (checkOperatorOverload1 ⟨[.strLit v]⟩ pid st).overloadPrototypes.lookup k
        = some pid0) := by
  refine ⟨?_, by decide, ?_, ?_, ?_⟩
  · intro s
    constructor
    · intro h
      by_contra hmem
      exact h (operatorKindFromString_eq_invalid_of_not_mem s hmem)
    · intro hmem
      exact operatorKindFromString_ne_invalid_of_mem s hmem
  · intro v pid st h
    simp [checkOperatorOverload1, h]
  · intro v pid st k hk hne hfresh
    subst hk
    simp [checkOperatorOverload1, hne, hfresh]
  · intro v pid pid0 st k hk hne hdup
    subst hk
    constructor
    · simp [checkOperatorOverload1, hne, hdup]
    · simp [checkOperatorOverload1, hne, hdup]

theorem c6_witness :
    checkOperatorOverload1 ⟨[.strLit "+"]⟩ 7 ⟨[], [], []⟩ =
      ⟨[(.ADD, 7)], [(7, .ADD)], []⟩ :=
  c6_operator_decorator.2.2.2.1 "+" 7 ⟨[], [], []⟩ .ADD rfl (by decide) rfl

theorem resolveFields_instances (env : ResolveEnv) :
    ∀ (fs : List FieldProtoM) (off : Nat) (st : ResolveSt),
      ((resolveFields env fs off st).2).instances = st.instances := by
  intro fs
  induction fs with
  | nil => intro off st; rfl
  | cons f rest ih =>
    intro off st
    rcases hf : f.type with _ | tname
    · simp [resolveFields, hf]
    · rcases henv : env.resolveTypeMap.lookup tname with _ | ty
      · simp [resolveFields, hf, henv, ih]
      · rcases halign : alignOffset off ty.byteSize with _ | a
        · simp [resolveFields, hf, henv, halign]
        · rcases hr : resolveFields env rest ((a + ty.byteSize) % u32Size) st
            with ⟨r, st2⟩
          have hinst : st2.instances = st.instances := by
            have hgen := ih ((a + ty.byteSize) % u32Size) st
            rw [hr] at hgen
            exact hgen
          rcases r with _ | ⟨fs2, fin⟩ <;>
            simp [resolveFields, hf, henv, halign, hr, hinst]

/-- C5: resolving a class whose extends clause names a class carrying the
    `SEALED` decorator emits *Class X is sealed and cannot be extended*
    and produces no `Class` instance: `resolve` returns bottom and the
    state is unchanged except for the diagnostic, so no derived class
    with a base exists. -/
theorem c5_sealed_base :
    ∀ (env : ResolveEnv) (p : ClassProtoM) (args : Option (List String))
      (st : ResolveSt) (tname : String) (ty : TyRef),
      st.instances.lookup (canonKey args) = none →
      p.declaration.extendsType = some tname →
      env.resolveTypeMap.lookup tname = some ty →
      ty.classRefId.isSome = true →
      ty.classSealed = true →
      classResolve env p args st =
        (none, { st with diags := .classIsSealedAndCannotBeExtended :: st.diags }) := by
  intro env p args st tname ty hmiss hext henv href hsealed
  rcases hid : ty.classRefId with _ | cid
  · rw [hid] at href
    simp at href
  · have hbase : resolveBaseClass env p = .err .classIsSealedAndCannotBeExtended := by
      simp [resolveBaseClass, hext, henv, hid, hsealed]
    simp [classResolve, hmiss, hbase]

theorem c5_witness :
    classResolve sealedEnv derivedProto none emptySt =
      (none, { emptySt with diags := [.classIsSealedAndCannotBeExtended] }) :=
  c5_sealed_base sealedEnv derivedProto none emptySt "B"
    { classRefId := some 9, classSealed := true, classUnmanaged := false,
      classMemoryOffset := 0, byteSize := 4 }
    rfl rfl rfl rfl rfl

/-- C9: `ClassPrototype#resolve` caches the newly constructed `Class`
    before resolving members: when the cache misses and the extends and
    arity checks pass, the resolve proceeds by allocating and caching
    the instance and only then resolving members; the state handed to
    member resolution already maps the key to the new instance; member
    resolution never changes the instances cache; hence a re-entrant
    resolve with an equally canonicalized key at any intermediate state
    returns the same partially constructed instance without recursing. -/
theorem c9_cache_set_before_members :
    ∀ (env : ResolveEnv) (p : ClassProtoM) (args : Option (List String))
      (st : ResolveSt) (baseTy : Option TyRef),
      st.instances.lookup (canonKey args) = none →
      resolveBaseClass env p = .ok baseTy →
      argCount args = p.declaration.typeParameters.length →
      classResolve env p args st =
        classResolveMembers env p (classAlloc (canonKey args) baseTy st).1 baseTy
          (classAlloc (canonKey args) baseTy st).2 ∧
      ((classAlloc (canonKey args) baseTy st).2).instances.lookup (canonKey args) =
        some (classAlloc (canonKey args) baseTy st).1 ∧
      (∀ (fs : List FieldProtoM) (off : Nat) (st3 : ResolveSt),
        ((resolveFields env fs off st3).2).instances = st3.instances) ∧
      (∀ (args2 : Option (List String)) (st2 : ResolveSt),
        canonKey args2 = canonKey args →
        st2.instances = ((classAlloc (canonKey args) baseTy st).2).instances →
        classResolve env p args2 st2 =
          (some (classAlloc (canonKey args) baseTy st).1, st2)) := by
  intro env p args st baseTy hmiss hok harity
  refine ⟨?_, ?_, resolveFields_instances env, ?_⟩
  · simp [classResolve, hmiss, hok, harity]
  · simp [classAlloc, List.lookup]
  · intro args2 st2 hk hinst
    have hl : st2.instances.lookup (canonKey args2) =
        some (classAlloc (canonKey args) baseTy st).1 := by
      rw [hk, hinst]
      simp [classAlloc, List.lookup]
    simp [classResolve, hl]

theorem c9_witness :
    classResolve sampleEnv sampleClassProto none emptySt =
      classResolveMembers sampleEnv sampleClassProto
        (classAlloc (canonKey none) none emptySt).1 none
        (classAlloc (canonKey none) none emptySt).2 :=
  (c9_cache_set_before_members sampleEnv sampleClassProto none emptySt none
    rfl rfl rfl).1

/-- C3 (code bug): `tryResolveImport` does not terminate on a queued-exports
    map whose `isReExport` links form a cycle — for every amount of fuel,
    the loop on the cyclic two-entry map has not returned, for either
    entry name. (The sibling walk in `initializeExport` carries a `seen`
    set; this loop does not.) -/
theorem c3_tryResolveImport_cycle_diverges :
    ∀ (fuel : Nat) (name : String), name = "a" ∨ name = "b" →
      tryResolveImport [] [] cyclicQueuedExports fuel name = none := by
  intro fuel
  induction fuel with
  | zero => intro name _; rfl
  | succ n ih =>
    intro name h
    rcases h with h | h <;> subst h
    · have hb := ih "b" (Or.inr rfl)
      have h1 : cyclicQueuedExports.lookup "a" =
          some { isReExport := true, referencedName := "b" } := by decide
      simp [tryResolveImport, List.lookup, h1, hb]
    · have ha := ih "a" (Or.inl rfl)
      have h1 : cyclicQueuedExports.lookup "b" =
          some { isReExport := true, referencedName := "a" } := by decide
      simp [tryResolveImport, List.lookup, h1, ha]

/-- C7 (code bug): `resolveSignature` on a signature whose single rest
    parameter is terminal hits `assert(i == numParameters)` with
    `i == numParameters - 1`, so the assertion fails instead of holding;
    the resolution aborts rather than succeeding with `hasRest` set.
    (For contrast, the same signature with the rest parameter replaced
    by a plain one resolves with `requiredParameters == 2` and return
    type defaulting to `void`.) -/
theorem c7_terminal_rest_assert_fails :
    resolveSignature sampleEnv
      { explicitThisType := none,
        parameterTypes :=
          [{ name := "x", parameterKind := .DEFAULT, type := some "i32" },
           { name := "r", parameterKind := .REST, type := some "i32" }],
        returnType := none } = .assertFail ∧
    resolveSignature sampleEnv
      { explicitThisType := none,
        parameterTypes :=
          [{ name := "x", parameterKind := .DEFAULT, type := some "i32" },
           { name := "y", parameterKind := .DEFAULT, type := some "i32" }],
        returnType := none } =
      .ok { requiredParameters := 2, hasRest := false, returnType := "void" } := by
  constructor <;> decide

/-- C8 counterexample: with one type parameter, zero supplied type
    arguments and no alternative report node, `resolveTypeArguments`
    returns bottom but emits no diagnostic at all — refuting the claim
    that the mismatch diagnostic is emitted for every mismatched pair of
    counts including zero supplied arguments. -/
theorem c8_counterexample :
    resolveTypeArguments sampleEnv ["T"] none false [] = (none, []) := by
  decide

/-- C8 (amended): on any arity mismatch `resolveTypeArguments` returns
    bottom; the diagnostic *Expected N type arguments but got M* is
    emitted exactly when the argument count is non-zero or an alternative
    report node was provided — with zero supplied arguments and no
    alternative report node the failure is silent. -/
theorem c8_arity_mismatch :
    ∀ (env : ResolveEnv) (typeParameters : List String)
      (typeArgumentNodes : Option (List TypeNodeM))
      (altReport : Bool) (diags : List Diag),
      nodeArgCount typeArgumentNodes ≠ typeParameters.length →
      (resolveTypeArguments env typeParameters typeArgumentNodes altReport
          diags).1 = none ∧
      (nodeArgCount typeArgumentNodes ≠ 0 →
        (resolveTypeArguments env typeParameters typeArgumentNodes altReport
            diags).2 =
          .expectedTypeArgumentsButGot typeParameters.length
            (nodeArgCount typeArgumentNodes) :: diags) ∧
      (nodeArgCount typeArgumentNodes = 0 → altReport = true →
        (resolveTypeArguments env typeParameters typeArgumentNodes altReport
            diags).2 =
          .expectedTypeArgumentsButGot typeParameters.length 0 :: diags) ∧
      (nodeArgCount typeArgumentNodes = 0 → altReport = false →
        (resolveTypeArguments env typeParameters typeArgumentNodes altReport
            diags).2 = diags) := by
  intro env typeParameters typeArgumentNodes altReport diags hmm
  have hne : typeParameters.length ≠ nodeArgCount typeArgumentNodes :=
    fun he => hmm he.symm
  refine ⟨?_, ?_, ?_, ?_⟩
  · by_cases hz : nodeArgCount typeArgumentNodes ≠ 0
    · simp [resolveTypeArguments, hne, hz]
    · simp only [not_not] at hz
      have hnil : ¬typeParameters = [] := fun he => hne (by simp [he, hz])
      cases altReport <;> simp [resolveTypeArguments, hne, hz, hnil]
  · intro hz
    simp [resolveTypeArguments, hne, hz]
  · intro hz halt
    subst halt
    have hnil : ¬typeParameters = [] := fun he => hne (by simp [he, hz])
    simp [resolveTypeArguments, hne, hz, hnil]
  · intro hz halt
    subst halt
    have hnil : ¬typeParameters = [] := fun he => hne (by simp [he, hz])
    simp [resolveTypeArguments, hne, hz, hnil]

theorem c8_witness :
    (resolveTypeArguments sampleEnv ["T", "U"] (some [{ name := "i32" }])
        false []).1 = none ∧
    (resolveTypeArguments sampleEnv ["T", "U"] (some [{ name := "i32" }])
        false []).2 = [.expectedTypeArgumentsButGot 2 1] :=
  ⟨(c8_arity_mismatch sampleEnv ["T", "U"] (some [{ name := "i32" }]) false []
      (by decide)).1,
   (c8_arity_mismatch sampleEnv ["T", "U"] (some [{ name := "i32" }]) false []
      (by decide)).2.1 (by decide)⟩

/-- C4 counterexample: in an entry source, `export { A }` ahead of the
    (unexported) declaration of `A` is established during the drain phase
    via the queued export; afterwards the file-level export exists but
    `moduleLevelExports` has no entry under the name and no element
    carries `MODULE_EXPORT` — refuting the claim for exports established
    via queued export statements. -/
theorem c4_counterexample :
    (initializeProgram c4Program).fileLevelExports.lookup "index/A" = some 0 ∧
    entrySource.isEntry = true ∧
    (initializeProgram c4Program).moduleLevelExports.lookup "index/A" = none ∧
    (initializeProgram c4Program).moduleExportFlags = [] := by
  decide

/-- C4 (amended): the module-export promotion holds for exported
    declarations recorded by `initializeClass` during the initial pass:
    for an entry source and fresh names, the declaration becomes both a
    file-level and a module-level export under its internal name and the
    element receives `MODULE_EXPORT`. Exports established through export
    statements — immediately or during the drain phase — all route
    through `setExportAndCheckLibrary`, which sets only
    `fileLevelExports` and never touches `moduleLevelExports` or the
    `MODULE_EXPORT` flag. -/
theorem c4_module_export_promotion :
    (∀ (src : SourceM) (name : String) (st : ProgSt),
      src.isEntry = true →
      st.elementsLookup.lookup (src.internalPath ++ "/" ++ name) = none →
      st.fileLevelExports.lookup (src.internalPath ++ "/" ++ name) = none →
      st.moduleLevelExports.lookup (src.internalPath ++ "/" ++ name) = none →
      (initializeClassM src name true st).fileLevelExports.lookup
          (src.internalPath ++ "/" ++ name) = some st.nextId ∧
      (initializeClassM src name true st).moduleLevelExports.lookup
          (src.internalPath ++ "/" ++ name) = some st.nextId ∧
      st.nextId ∈ (initializeClassM src name true st).moduleExportFlags) ∧
    (∀ (name : String) (el : Nat) (idText : String) (isLib : Bool)
       (st : ProgSt),
      (setExportAndCheckLibrary name el idText isLib st).moduleLevelExports =
        st.moduleLevelExports ∧
      (setExportAndCheckLibrary name el idText isLib st).moduleExportFlags =
        st.moduleExportFlags) := by
  constructor
  · intro src name st hentry hel hfe hml
    refine ⟨?_, ?_, ?_⟩ <;>
      simp [initializeClassM, hel, hfe, hml, hentry, List.lookup]
  · intro name el idText isLib st
    cases isLib <;> constructor <;>
      simp [setExportAndCheckLibrary] <;> split <;> rfl

theorem c4_witness :
    (initializeClassM entrySource "A" true emptyProgSt).fileLevelExports.lookup
        "index/A" = some 0 ∧
    (initializeClassM entrySource "A" true emptyProgSt).moduleLevelExports.lookup
        "index/A" = some 0 ∧
    0 ∈ (initializeClassM entrySource "A" true emptyProgSt).moduleExportFlags :=
  c4_module_export_promotion.1 entrySource "A" emptyProgSt rfl rfl rfl rfl

theorem c3_witness :
    tryResolveImport [] [] cyclicQueuedExports 1000 "a" = none :=
  c3_tryResolveImport_cycle_diverges 1000 "a" (Or.inl rfl)
